import Mathlib

/-!
Formal model of the Polymarket order-management backend
(`backend/utilities.py`, `backend/order_orchestrator.py`,
`backend/websocket_handlers.py`), together with theorems settling the
specification's claims about it.

Modelling conventions: Python floats are modelled as exact rationals;
wall-clock instants as rationals (seconds); every Python method that
mutates `self` becomes a pure function from the old state (plus ambient
inputs such as the current time) to the new state; Python dicts keyed by
strings become association lists with unique keys.
-/

namespace Polymarket

/-- `MIN_ORDER_SIZE` from `utilities.py`: minimum order size in shares. -/
def MIN_ORDER_SIZE : ℚ := 5

/-- Order side (the `"BUY"` / `"SELL"` constants of the source). -/
inductive Side where
  | buy
  | sell
deriving DecidableEq, Repr

/-- Python dict assignment `d[k] = v` on an association list: replaces
the value in place when the key exists, appends otherwise. -/
def dictSet {α : Type} (l : List (String × α)) (k : String) (v : α) :
    List (String × α) :=
  if l.any (fun p => p.1 = k) then
    l.map (fun p => if p.1 = k then (k, v) else p)
  else l ++ [(k, v)]

/-- Python dict lookup `d.get(k)` on an association list. -/
def dictGet {α : Type} (l : List (String × α)) (k : String) : Option α :=
  (l.find? (fun p => p.1 = k)).map (·.2)

/-- `OrderState` dataclass (the two timestamps are never read by any of
the modelled logic and are omitted). -/
structure OrderState where
  orderId : String
  price : ℚ
  size : ℚ
  status : String
  filledSize : ℚ := 0
deriving DecidableEq, Repr

/-- `MarketData` dataclass (timestamp omitted, never read). -/
structure MarketData where
  assetId : String
  topBid : ℚ
  topAsk : ℚ
  bidSize : ℚ
  askSize : ℚ
deriving DecidableEq, Repr

/-- `StrategyConfig` dataclass from `utilities.py`. -/
structure StrategyConfig where
  tokenId : String
  limitPrice : ℚ
  totalQuantity : ℚ
  childOrderSize : ℚ
  orderPriceMinTickSize : ℚ
  side : Side := .buy
  timeoutSeconds : ℤ := 3600
  rateLimitPerSecond : ℚ := 5
  maxPendingOrders : ℕ := 3
  priceImprovementTicks : ℤ := 1
  matchTopOfBook : Bool := false
  insideLiquidityMode : Bool := false
deriving DecidableEq, Repr

/-! ### PositionTracker (`utilities.py`) -/

/-- `PositionTracker` state.  `pending_orders` is a dict keyed by order
id (insertion ordered); `fill_history` records `(size, price)` of each
applied fill (timestamps omitted). -/
structure PositionTracker where
  tokenId : String
  targetQuantity : ℚ
  filledQuantity : ℚ
  pendingOrders : List (String × OrderState)
  fillHistory : List (ℚ × ℚ)
  totalFillValue : ℚ
deriving DecidableEq, Repr

/-- `PositionTracker.__init__`. -/
def PositionTracker.init (tokenId : String) (targetQuantity : ℚ) :
    PositionTracker :=
  { tokenId := tokenId, targetQuantity := targetQuantity,
    filledQuantity := 0, pendingOrders := [], fillHistory := [],
    totalFillValue := 0 }

/-- `PositionTracker.get_remaining_quantity`. -/
def PositionTracker.getRemainingQuantity (t : PositionTracker) : ℚ :=
  max 0 (t.targetQuantity - t.filledQuantity)

/-- `PositionTracker.update_filled_quantity`: the fill is capped to the
remaining quantity; a capped size ≤ 0 is ignored (warning only). -/
def PositionTracker.updateFilledQuantity (t : PositionTracker)
    (fillSize fillPrice : ℚ) : PositionTracker :=
  let actualFillSize := min fillSize t.getRemainingQuantity
  if actualFillSize ≤ 0 then t
  else
    { t with
      filledQuantity := t.filledQuantity + actualFillSize,
      totalFillValue := t.totalFillValue + actualFillSize * fillPrice,
      fillHistory := t.fillHistory ++ [(actualFillSize, fillPrice)] }

/-- A finite sequence of `update_filled_quantity` calls. -/
def PositionTracker.applyFills (t : PositionTracker)
    (fills : List (ℚ × ℚ)) : PositionTracker :=
  fills.foldl (fun acc f => acc.updateFilledQuantity f.1 f.2) t

/-- `PositionTracker.add_pending_order`. -/
def PositionTracker.addPendingOrder (t : PositionTracker)
    (orderId : String) (price size : ℚ) : PositionTracker :=
  let newOrder : OrderState :=
    { orderId := orderId, price := price, size := size, status := "LIVE" }
  { t with pendingOrders := dictSet t.pendingOrders orderId newOrder }

/-- `PositionTracker.remove_pending_order`: deletes the entry when
present, no-op otherwise. -/
def PositionTracker.removePendingOrder (t : PositionTracker)
    (orderId : String) : PositionTracker :=
  { t with pendingOrders := t.pendingOrders.filter (fun p => p.1 ≠ orderId) }

/-- `PositionTracker.get_pending_orders` (the dict's values). -/
def PositionTracker.getPendingOrdersList (t : PositionTracker) :
    List OrderState :=
  t.pendingOrders.map (·.2)

/-- `PositionTracker.is_target_reached`. -/
def PositionTracker.isTargetReached (t : PositionTracker) : Bool :=
  decide (t.targetQuantity ≤ t.filledQuantity)

/-! ### RateLimiter (`utilities.py`) -/

/-- `RateLimiter` state (`last_update` is a wall-clock instant). -/
structure RateLimiter where
  maxRequestsPerSecond : ℚ
  tokens : ℚ
  lastUpdate : ℚ
deriving DecidableEq, Repr

/-- `RateLimiter.__init__` at construction instant `now`. -/
def RateLimiter.init (rate now : ℚ) : RateLimiter :=
  { maxRequestsPerSecond := rate, tokens := rate, lastUpdate := now }

/-- `RateLimiter.acquire` called at instant `now`: lazily refill
(elapsed seconds × rate, capped at capacity), then either consume one
token and grant, or deny. -/
def RateLimiter.acquire (rl : RateLimiter) (now : ℚ) : Bool × RateLimiter :=
  let tokens := min rl.maxRequestsPerSecond
    (rl.tokens + (now - rl.lastUpdate) * rl.maxRequestsPerSecond)
  if 1 ≤ tokens then
    (true, { rl with tokens := tokens - 1, lastUpdate := now })
  else
    (false, { rl with tokens := tokens, lastUpdate := now })

/-- A sequence of `acquire` calls at the given instants. -/
def RateLimiter.acquireSeq (rl : RateLimiter) :
    List ℚ → List Bool × RateLimiter
  | [] => ([], rl)
  | t :: ts =>
    let r1 := rl.acquire t
    let rest := r1.2.acquireSeq ts
    (r1.1 :: rest.1, rest.2)

/-! ### StopConditionManager (`utilities.py`)

The stop callback is modelled by recording the reason strings of its
scheduled invocations (`asyncio.create_task(self.stop_callback(r))`)
alongside each operation's result. -/

/-- `StopConditionManager` state. -/
structure StopConditionManager where
  timeoutSeconds : ℚ
  startTime : ℚ
  stopRequested : Bool
  hasCallback : Bool
deriving DecidableEq, Repr

/-- `StopConditionManager.request_stop`: sets the flag and invokes the
callback (when set) with reason `"manual_stop"`. -/
def StopConditionManager.requestStop (m : StopConditionManager) :
    StopConditionManager × List String :=
  ({ m with stopRequested := true },
   if m.hasCallback then ["manual_stop"] else [])

/-- `StopConditionManager.check_timeout` at instant `now`: on an elapsed
timeout it invokes the callback (when set) with reason `"timeout"` and
returns true; the state itself is not mutated. -/
def StopConditionManager.checkTimeout (m : StopConditionManager)
    (now : ℚ) : Bool × List String :=
  if m.timeoutSeconds < now - m.startTime then
    (true, if m.hasCallback then ["timeout"] else [])
  else (false, [])

/-- `StopConditionManager.should_stop` at instant `now`. -/
def StopConditionManager.shouldStop (m : StopConditionManager)
    (now : ℚ) : Bool × List String :=
  if m.stopRequested then (true, []) else m.checkTimeout now

/-- Callback invocations accumulated over a series of `should_stop`
polls (the manager state is unchanged by polling). -/
def StopConditionManager.pollShouldStop (m : StopConditionManager)
    (times : List ℚ) : List String :=
  (times.map (fun t => (m.shouldStop t).2)).flatten

/-! ### TopOfBookStrategy (`order_orchestrator.py`) -/

/-- Python `round` on an exact value: round half to even. -/
def pyRoundHalfEven (x : ℚ) : ℤ :=
  let f := ⌊x⌋
  if x - f < 1/2 then f
  else if (1 : ℚ)/2 < x - f then f + 1
  else if f % 2 = 0 then f else f + 1

/-- Python `round(x, places)` on an exact decimal value. -/
def pyRound (x : ℚ) (places : ℕ) : ℚ :=
  (pyRoundHalfEven (x * 10 ^ places) : ℚ) / 10 ^ places

/-- The pricing-relevant fields of `TopOfBookStrategy` (the executor,
tracker and error counters are passed separately where needed). -/
structure TopOfBookStrategy where
  childOrderSize : ℚ
  limitPrice : ℚ
  side : Side
  orderPriceMinTickSize : ℚ
  priceImprovementTicks : ℤ
  matchTopOfBook : Bool
deriving DecidableEq, Repr

/-- How `OrderManager.__init__` builds the top-of-book strategy from a
`StrategyConfig` (`config.max_pending_orders` is not passed through). -/
def buildTopOfBookStrategy (cfg : StrategyConfig) : TopOfBookStrategy :=
  { childOrderSize := cfg.childOrderSize, limitPrice := cfg.limitPrice,
    side := cfg.side, orderPriceMinTickSize := cfg.orderPriceMinTickSize,
    priceImprovementTicks := cfg.priceImprovementTicks,
    matchTopOfBook := cfg.matchTopOfBook }

/-- `decimal_places = 3 if self.order_price_min_tick_size == 0.001 else 2`. -/
def TopOfBookStrategy.roundDecimals (s : TopOfBookStrategy) : ℕ :=
  if s.orderPriceMinTickSize = 1/1000 then 3 else 2

/-- The market side the strategy quotes on: `market_data.top_bid` for
BUY, `market_data.top_ask` for SELL. -/
def TopOfBookStrategy.currentTopPrice (s : TopOfBookStrategy)
    (m : MarketData) : ℚ :=
  match s.side with
  | .buy => m.topBid
  | .sell => m.topAsk

/-- Our best resting price among pending orders on our own side
(`max(prices)` for BUY, `min(prices)` for SELL, none when no orders). -/
def TopOfBookStrategy.bestRestingPrice (s : TopOfBookStrategy)
    (pending : List OrderState) : Option ℚ :=
  match s.side with
  | .buy => (pending.map (·.price)).max?
  | .sell => (pending.map (·.price)).min?

/-- `TopOfBookStrategy._calculate_target_price`.  For BUY the source
uses `max(prices, default=0.0)`; for SELL `min(prices, default=inf)` —
the infinite default is never within one tick of the finite top price,
so the empty-pending SELL case goes straight to the normal path. -/
def TopOfBookStrategy.calculateTargetPrice (s : TopOfBookStrategy)
    (pending : List OrderState) (currentTopPrice : ℚ) : ℚ :=
  match s.side with
  | .buy =>
    let ourBestPrice := ((pending.map (·.price)).max?).getD 0
    if |currentTopPrice - ourBestPrice| ≤ s.orderPriceMinTickSize then
      ourBestPrice
    else
      let targetPrice :=
        if s.matchTopOfBook then currentTopPrice
        else currentTopPrice +
          (s.priceImprovementTicks : ℚ) * s.orderPriceMinTickSize
      pyRound (min targetPrice s.limitPrice) s.roundDecimals
  | .sell =>
    match (pending.map (·.price)).min? with
    | some ourBestPrice =>
      if |currentTopPrice - ourBestPrice| ≤ s.orderPriceMinTickSize then
        ourBestPrice
      else
        let targetPrice :=
          if s.matchTopOfBook then currentTopPrice
          else currentTopPrice -
            (s.priceImprovementTicks : ℚ) * s.orderPriceMinTickSize
        pyRound (max targetPrice s.limitPrice) s.roundDecimals
    | none =>
      let targetPrice :=
        if s.matchTopOfBook then currentTopPrice
        else currentTopPrice -
          (s.priceImprovementTicks : ℚ) * s.orderPriceMinTickSize
      pyRound (max targetPrice s.limitPrice) s.roundDecimals

/-- `TopOfBookStrategy._should_adjust_orders`. -/
def TopOfBookStrategy.shouldAdjustOrders (s : TopOfBookStrategy)
    (t : PositionTracker) (m : MarketData) : Bool :=
  if t.isTargetReached then false
  else
    let pending := t.getPendingOrdersList
    if pending.isEmpty then true
    else
      let targetPrice := s.calculateTargetPrice pending (s.currentTopPrice m)
      pending.any (fun o =>
        decide (s.orderPriceMinTickSize < |o.price - targetPrice|))

/-- `TopOfBookStrategy._should_place_order`: refuses a price through
the limit, and refuses when 3 or more orders are already pending (the
bound is the literal `3` in the source). -/
def TopOfBookStrategy.shouldPlaceOrder (s : TopOfBookStrategy)
    (t : PositionTracker) (price : ℚ) : Bool :=
  if s.side = .buy ∧ s.limitPrice < price then false
  else if s.side = .sell ∧ price < s.limitPrice then false
  else if 3 ≤ t.getPendingOrdersList.length then false
  else true

/-- `TopOfBookStrategy._get_optimal_order_size`. -/
def TopOfBookStrategy.getOptimalOrderSize (s : TopOfBookStrategy)
    (remainingQuantity : ℚ) : ℚ :=
  if remainingQuantity < MIN_ORDER_SIZE then 0
  else if remainingQuantity ≤ s.childOrderSize then remainingQuantity
  else
    let remainderAfterChildOrder := remainingQuantity - s.childOrderSize
    if 0 < remainderAfterChildOrder ∧
        remainderAfterChildOrder < MIN_ORDER_SIZE then
      remainingQuantity
    else s.childOrderSize

/-- The cancellation phase of `_adjust_orders`: every pending order
whose price differs from the target by more than one tick is cancelled
and removed; the rest are kept. -/
def TopOfBookStrategy.adjustCancelPhase (s : TopOfBookStrategy)
    (t : PositionTracker) (targetPrice : ℚ) : PositionTracker :=
  let kept := t.pendingOrders.filter
    (fun p => decide (|p.2.price - targetPrice| ≤ s.orderPriceMinTickSize))
  { t with pendingOrders := kept }

/-- The placement decision of `_adjust_orders` / `_place_new_order`:
the `(price, size)` handed to `OrderExecutor.place_order` (if any).
The gate `_should_place_order` is evaluated in `_adjust_orders` and
again inside `_place_new_order`, on the post-cancellation tracker. -/
def TopOfBookStrategy.adjustPlacement (s : TopOfBookStrategy)
    (t : PositionTracker) (m : MarketData) : Option (ℚ × ℚ) :=
  let targetPrice :=
    s.calculateTargetPrice t.getPendingOrdersList (s.currentTopPrice m)
  let t1 := s.adjustCancelPhase t targetPrice
  let remainingQty := t1.getRemainingQuantity
  if 0 < remainingQty ∧ s.shouldPlaceOrder t1 targetPrice then
    let orderSize := s.getOptimalOrderSize remainingQty
    if 0 < orderSize then
      if s.shouldPlaceOrder t1 targetPrice then some (targetPrice, orderSize)
      else none
    else none
  else none

/-- One `_adjust_orders` step on the tracker.  `newOrderId` is the
venue-assigned id on success; `accepted = false` models any failure of
the submission (validation, rate-limit denial, venue rejection). -/
def TopOfBookStrategy.adjustOrders (s : TopOfBookStrategy)
    (t : PositionTracker) (m : MarketData) (newOrderId : String)
    (accepted : Bool) : PositionTracker :=
  let targetPrice :=
    s.calculateTargetPrice t.getPendingOrdersList (s.currentTopPrice m)
  let t1 := s.adjustCancelPhase t targetPrice
  match s.adjustPlacement t m with
  | some ps => if accepted then t1.addPendingOrder newOrderId ps.1 ps.2 else t1
  | none => t1

/-! ### OrderExecutor.cancel_order (`order_orchestrator.py`)

The venue client and the rate limiter are asynchronous collaborators;
each loop iteration's environment outcome (rate-limit denial, a venue
response, or a raised exception) is supplied by an oracle indexed by
attempt number.  The loop's observable behaviour is recorded as a trace
of events (one per attempt, plus each `asyncio.sleep(1)` backoff). -/

/-- Shape of `client.cancel_orders([order_id])` responses handled by the
source: a dict with `canceled` / `not_canceled` keys, a list (truthy iff
non-empty, modelled by its length), or a falsy/None response. -/
inductive CancelResp where
  | rdict (canceled : List String) (notCanceled : List (String × String))
  | rlist (len : ℕ)
  | rnone
deriving DecidableEq, Repr

/-- Whether one response makes `cancel_order` return `True`: the id is
in `canceled`; or `not_canceled[id] == "order already canceled"`; or the
response is a non-empty list. -/
def cancelRespSuccess (orderId : String) : CancelResp → Bool
  | .rdict canceled notCanceled =>
    if orderId ∈ canceled then true
    else
      match dictGet notCanceled orderId with
      | some reason => decide (reason = "order already canceled")
      | none => false
  | .rlist len => decide (0 < len)
  | .rnone => false

/-- Outcome of one loop iteration, as supplied by the environment. -/
inductive AttemptOutcome where
  | rateDenied
  | response (r : CancelResp)
  | raised
deriving DecidableEq, Repr

/-- Observable events of a `cancel_order` call. -/
inductive CancelEvent where
  | attemptAt (idx : ℕ)
  | sleptSeconds (secs : ℕ)
deriving DecidableEq, Repr

/-- Is this trace event an attempt? -/
def CancelEvent.isAttempt : CancelEvent → Bool
  | .attemptAt _ => true
  | .sleptSeconds _ => false

/-- The retry loop of `OrderExecutor.cancel_order`.  `left` counts the
remaining iterations of `for attempt in range(max_retries)` and `idx`
the current attempt number, so `attempt == max_retries - 1` is
`left = 1`.  A rate-limit denial on the last attempt raises; earlier
denials sleep 1s and continue.  A successful response returns `True`; a
failed response raises on the last attempt and otherwise retries with
no sleep; an exception raises on the last attempt and otherwise sleeps
1s and retries.  Falling out of the loop returns `False`. -/
def cancelLoop (env : ℕ → AttemptOutcome) (orderId : String) :
    (idx : ℕ) → (left : ℕ) → List CancelEvent × Except String Bool
  | _, 0 => ([], .ok false)
  | idx, left + 1 =>
    match env idx with
    | .rateDenied =>
      if left = 0 then
        ([.attemptAt idx],
         .error ("Failed to cancel order " ++ orderId ++ " due to rate limiting"))
      else
        let rest := cancelLoop env orderId (idx + 1) left
        (.attemptAt idx :: .sleptSeconds 1 :: rest.1, rest.2)
    | .response r =>
      if cancelRespSuccess orderId r then ([.attemptAt idx], .ok true)
      else if left = 0 then
        ([.attemptAt idx],
         .error ("Failed to cancel order " ++ orderId))
      else
        let rest := cancelLoop env orderId (idx + 1) left
        (.attemptAt idx :: rest.1, rest.2)
    | .raised =>
      if left = 0 then
        ([.attemptAt idx],
         .error ("Failed to cancel order " ++ orderId ++ ": exception"))
      else
        let rest := cancelLoop env orderId (idx + 1) left
        (.attemptAt idx :: .sleptSeconds 1 :: rest.1, rest.2)

/-- `OrderExecutor.cancel_order(order_id, max_retries)`. -/
def cancelOrder (env : ℕ → AttemptOutcome) (orderId : String)
    (maxRetries : ℕ) : List CancelEvent × Except String Bool :=
  cancelLoop env orderId 0 maxRetries

/-! ### Order-Book Maintainer (`websocket_handlers.py`)

The feed delivers prices and sizes as JSON strings; the source keeps
them as strings inside the stored books and converts with `float(...)`
only for comparisons, sorting and the emitted snapshot.  The conversion
is an uninterpreted parameter `fval` below. -/

/-- One price level of a stored book (raw feed strings). -/
structure BookLevel where
  price : String
  size : String
deriving DecidableEq, Repr

/-- A stored order book: both sides kept worst→best (bids ascending,
asks descending), best price last. -/
structure OrderBook where
  bids : List BookLevel
  asks : List BookLevel
deriving DecidableEq, Repr

/-- A full-book (`event_type == "book"`) message.  An absent `bids` or
`asks` key is modelled as the empty list (the source normalizes with
`.get(..., [])` wherever it reads them). -/
structure BookMessage where
  assetId : Option String
  bids : List BookLevel
  asks : List BookLevel
deriving DecidableEq, Repr

/-- One entry of a `price_change` message's `changes` list. -/
structure PriceChangeItem where
  price : Option String
  side : Option String
  size : Option String
deriving DecidableEq, Repr

/-- A `price_change` message. -/
structure PriceChangeMessage where
  assetId : Option String
  changes : List PriceChangeItem
deriving DecidableEq, Repr

/-- The two message kinds consumed by `MarketDataStream`. -/
inductive StreamMessage where
  | book (m : BookMessage)
  | priceChange (m : PriceChangeMessage)
deriving DecidableEq, Repr

/-- Stable insertion keeping elements that compare ≤ the new one ahead
of it (mirrors Python's stable `list.sort`). -/
def insertLevelBy (le : BookLevel → BookLevel → Bool) (x : BookLevel) :
    List BookLevel → List BookLevel
  | [] => [x]
  | y :: ys => if le y x then y :: insertLevelBy le x ys else x :: y :: ys

/-- Insertion sort of book levels by the given comparison. -/
def sortLevelsBy (le : BookLevel → BookLevel → Bool)
    (l : List BookLevel) : List BookLevel :=
  l.foldr (insertLevelBy le) []

/-- Apply one price change to one side of the book: update the first
level with this exact price string (removing it when the new size reads
as zero), or append-and-sort a new level when the size is positive.
`ascending` selects the bid-side (low→high) vs ask-side (high→low)
sort order. -/
def updateLevels (fval : String → ℚ) (ascending : Bool)
    (levels : List BookLevel) (price size : String) : List BookLevel :=
  match levels.findIdx? (fun lv => lv.price = price) with
  | some i =>
    if fval size = 0 then levels.eraseIdx i
    else levels.set i { price := price, size := size }
  | none =>
    if 0 < fval size then
      let le : BookLevel → BookLevel → Bool :=
        if ascending then fun a b => decide (fval a.price ≤ fval b.price)
        else fun a b => decide (fval b.price ≤ fval a.price)
      sortLevelsBy le (levels ++ [{ price := price, size := size }])
    else levels

/-- Apply one `changes` entry: entries with a missing or empty `price`,
`side` or `size` field (`if not all([price, side, size])`) are skipped;
`side == "BUY"` selects the bid side, anything else the ask side. -/
def applySingleChange (fval : String → ℚ) (book : OrderBook)
    (c : PriceChangeItem) : OrderBook :=
  match c.price, c.side, c.size with
  | some p, some sd, some sz =>
    if p = "" ∨ sd = "" ∨ sz = "" then book
    else if sd = "BUY" then
      { book with bids := updateLevels fval true book.bids p sz }
    else
      { book with asks := updateLevels fval false book.asks p sz }
  | _, _, _ => book

/-- Emit a normalized `MarketData` snapshot iff both sides of the book
are non-empty (`if bids and asks:`); the tops are the last elements. -/
def emitIfTwoSided (fval : String → ℚ) (assetId : String)
    (book : OrderBook) : Option MarketData :=
  match book.bids.getLast?, book.asks.getLast? with
  | some bb, some ba =>
    some { assetId := assetId, topBid := fval bb.price,
           topAsk := fval ba.price, bidSize := fval bb.size,
           askSize := fval ba.size }
  | _, _ => none

/-- `MarketDataStream._handle_book_update`: store the full book for the
asset, then emit iff both sides are non-empty.  A missing or empty
asset id drops the message. -/
def handleBookUpdate (fval : String → ℚ)
    (books : List (String × OrderBook)) (msg : BookMessage) :
    List (String × OrderBook) × Option MarketData :=
  match msg.assetId with
  | none => (books, none)
  | some aid =>
    if aid = "" then (books, none)
    else
      let book : OrderBook := { bids := msg.bids, asks := msg.asks }
      (dictSet books aid book, emitIfTwoSided fval aid book)

/-- `MarketDataStream._handle_price_change`: a message for an unknown
instrument (or with a missing/empty asset id) is dropped; otherwise the
stored book is mutated change by change and a snapshot is emitted iff
both sides are then non-empty. -/
def handlePriceChange (fval : String → ℚ)
    (books : List (String × OrderBook)) (msg : PriceChangeMessage) :
    List (String × OrderBook) × Option MarketData :=
  match msg.assetId with
  | none => (books, none)
  | some aid =>
    if aid = "" then (books, none)
    else
      match dictGet books aid with
      | none => (books, none)
      | some book =>
        let book1 := msg.changes.foldl (applySingleChange fval) book
        (dictSet books aid book1, emitIfTwoSided fval aid book1)

/-- Dispatch one stream message. -/
def processMessage (fval : String → ℚ)
    (books : List (String × OrderBook)) :
    StreamMessage → List (String × OrderBook) × Option MarketData
  | .book m => handleBookUpdate fval books m
  | .priceChange m => handlePriceChange fval books m

/-- Along a message sequence from the given state, every emitted
`MarketData` event is emitted with the stored book of its asset having
both a non-empty bid side and a non-empty ask side. -/
def emitsOnlyTwoSidedFrom (fval : String → ℚ)
    (books : List (String × OrderBook)) : List StreamMessage → Prop
  | [] => True
  | m :: ms =>
    (∀ ev, (processMessage fval books m).2 = some ev →
      ∃ b, dictGet (processMessage fval books m).1 ev.assetId = some b ∧
        b.bids ≠ [] ∧ b.asks ≠ []) ∧
    emitsOnlyTwoSidedFrom fval (processMessage fval books m).1 ms

/-! ## Helper lemmas -/

theorem updateFilledQuantity_target_eq (t : PositionTracker)
    (fillSize fillPrice : ℚ) :
    (t.updateFilledQuantity fillSize fillPrice).targetQuantity =
      t.targetQuantity := by
  unfold PositionTracker.updateFilledQuantity
  dsimp only
  split <;> rfl

theorem updateFilledQuantity_filled_mono (t : PositionTracker)
    (fillSize fillPrice : ℚ) :
    t.filledQuantity ≤
      (t.updateFilledQuantity fillSize fillPrice).filledQuantity := by
  unfold PositionTracker.updateFilledQuantity
  dsimp only
  split
  · exact le_refl _
  · rename_i hpos
    dsimp only
    nlinarith [not_le.mp hpos]

theorem updateFilledQuantity_filled_le_target (t : PositionTracker)
    (fillSize fillPrice : ℚ) (h : t.filledQuantity ≤ t.targetQuantity) :
    (t.updateFilledQuantity fillSize fillPrice).filledQuantity ≤
      t.targetQuantity := by
  unfold PositionTracker.updateFilledQuantity PositionTracker.getRemainingQuantity
  dsimp only
  split
  · exact h
  · dsimp only
    have h1 : min fillSize (max 0 (t.targetQuantity - t.filledQuantity)) ≤
        max 0 (t.targetQuantity - t.filledQuantity) := min_le_right _ _
    have h2 : max 0 (t.targetQuantity - t.filledQuantity) =
        t.targetQuantity - t.filledQuantity := max_eq_right (by linarith)
    linarith

theorem applyFills_filled_le_target (fills : List (ℚ × ℚ)) :
    ∀ t : PositionTracker, t.filledQuantity ≤ t.targetQuantity →
      (t.applyFills fills).filledQuantity ≤ t.targetQuantity := by
  induction fills with
  | nil => intro t h; exact h
  | cons f fs ih =>
    intro t h
    have h1 := updateFilledQuantity_filled_le_target t f.1 f.2 h
    have h2 := updateFilledQuantity_target_eq t f.1 f.2
    have h3 := ih (t.updateFilledQuantity f.1 f.2) (by rw [h2]; exact h1)
    rw [h2] at h3
    simpa [PositionTracker.applyFills] using h3

/-! ## Claims -/

/-- C1: for every position tracker with a non-negative target and every
finite sequence of `update_filled_quantity` calls with arbitrary fill
sizes, `filled_quantity` is non-decreasing at each call and never
exceeds `target_quantity`; a single call with fill size `target + 5`
from a fresh tracker with target 10 leaves `filled_quantity` exactly
10, not 15. -/
theorem c1_fill_monotone_and_clamped :
    (∀ (t : PositionTracker) (fillSize fillPrice : ℚ),
      t.filledQuantity ≤
        (t.updateFilledQuantity fillSize fillPrice).filledQuantity) ∧
    (∀ (t : PositionTracker) (fills : List (ℚ × ℚ)),
      t.filledQuantity ≤ t.targetQuantity →
      (t.applyFills fills).filledQuantity ≤ t.targetQuantity) ∧
    (∀ (tokenId : String) (target : ℚ) (fills : List (ℚ × ℚ)),
      0 ≤ target →
      ((PositionTracker.init tokenId target).applyFills fills).filledQuantity
        ≤ target) ∧
    (∀ fillPrice : ℚ,
      ((PositionTracker.init "tok" 10).updateFilledQuantity (10 + 5)
        fillPrice).filledQuantity = 10) := by
  refine ⟨updateFilledQuantity_filled_mono,
          fun t fills h => applyFills_filled_le_target fills t h,
          fun tokenId target fills h => ?_, fun fillPrice => ?_⟩
  · exact applyFills_filled_le_target fills (PositionTracker.init tokenId target)
      (by simpa [PositionTracker.init] using h)
  · norm_num [PositionTracker.init, PositionTracker.updateFilledQuantity,
      PositionTracker.getRemainingQuantity]

/-- Witness for C1 at concrete inputs: target 10, fills 4 then 15 then
-3, ending exactly at the target. -/
theorem c1_witness :
    (PositionTracker.init "tok" 0).filledQuantity ≤ (10 : ℚ) ∧
    (((PositionTracker.init "tok" 10).applyFills
        [(4, 1/2), (15, 1/2), (-3, 1/2)]).filledQuantity ≤ 10) ∧
    ((PositionTracker.init "tok" 10).updateFilledQuantity (10 + 5)
        (1/2)).filledQuantity = 10 := by
  refine ⟨by norm_num [PositionTracker.init], ?_, ?_⟩
  · exact c1_fill_monotone_and_clamped.2.2.1 "tok" 10
      [(4, 1/2), (15, 1/2), (-3, 1/2)] (by norm_num)
  · exact c1_fill_monotone_and_clamped.2.2.2 (1/2)

/-- C4: `_get_optimal_order_size` with minimum order size 5 returns 0
below the minimum; all remaining when remaining ≤ child size; all
remaining when the dust left after a child order would be positive but
below the minimum (combined oversized order); and the child size
otherwise.  In particular remaining 12 with child size 10 gives 12. -/
theorem c4_optimal_order_size :
    MIN_ORDER_SIZE = 5 ∧
    (∀ (s : TopOfBookStrategy) (r : ℚ),
      (r < 5 → s.getOptimalOrderSize r = 0) ∧
      (5 ≤ r → r ≤ s.childOrderSize → s.getOptimalOrderSize r = r) ∧
      (5 ≤ r → s.childOrderSize < r → 0 < r - s.childOrderSize →
        r - s.childOrderSize < 5 → s.getOptimalOrderSize r = r) ∧
      (5 ≤ r → s.childOrderSize < r → 5 ≤ r - s.childOrderSize →
        s.getOptimalOrderSize r = s.childOrderSize)) ∧
    (∀ s : TopOfBookStrategy, s.childOrderSize = 10 →
      s.getOptimalOrderSize 12 = 12) := by
  refine ⟨rfl, fun s r => ⟨?_, ?_, ?_, ?_⟩, fun s h => ?_⟩
  · intro h
    unfold TopOfBookStrategy.getOptimalOrderSize
    rw [if_pos (by rw [MIN_ORDER_SIZE]; exact h)]
  · intro h1 h2
    unfold TopOfBookStrategy.getOptimalOrderSize
    rw [if_neg (by rw [MIN_ORDER_SIZE]; linarith), if_pos h2]
  · intro h1 h2 h3 h4
    unfold TopOfBookStrategy.getOptimalOrderSize
    rw [if_neg (by rw [MIN_ORDER_SIZE]; linarith),
        if_neg (by linarith), if_pos]
    exact ⟨h3, by rw [MIN_ORDER_SIZE]; exact h4⟩
  · intro h1 h2 h3
    unfold TopOfBookStrategy.getOptimalOrderSize
    rw [if_neg (by rw [MIN_ORDER_SIZE]; linarith),
        if_neg (by linarith), if_neg]
    rw [MIN_ORDER_SIZE]
    rintro ⟨-, hlt⟩
    linarith
  · unfold TopOfBookStrategy.getOptimalOrderSize
    rw [h, MIN_ORDER_SIZE]
    norm_num

/-- Witness for C4: remaining 12, child size 10 combine into one order
of 12; remaining 3 is below the minimum and places nothing. -/
theorem c4_witness :
    TopOfBookStrategy.getOptimalOrderSize
      { childOrderSize := 10, limitPrice := 1/2, side := .buy,
        orderPriceMinTickSize := 1/100, priceImprovementTicks := 1,
        matchTopOfBook := false } 12 = 12 ∧
    TopOfBookStrategy.getOptimalOrderSize
      { childOrderSize := 10, limitPrice := 1/2, side := .buy,
        orderPriceMinTickSize := 1/100, priceImprovementTicks := 1,
        matchTopOfBook := false } 3 = 0 := by
  constructor
  · exact ((c4_optimal_order_size.2.1 _ 12).2.2.1 (by norm_num)
      (by norm_num) (by norm_num) (by norm_num))
  · exact ((c4_optimal_order_size.2.1 _ 3).1 (by norm_num))

theorem shouldPlaceOrder_limit (s : TopOfBookStrategy)
    (t : PositionTracker) (price : ℚ)
    (h : s.shouldPlaceOrder t price = true) :
    (s.side = .buy → price ≤ s.limitPrice) ∧
    (s.side = .sell → s.limitPrice ≤ price) := by
  unfold TopOfBookStrategy.shouldPlaceOrder at h
  constructor
  · intro hside
    by_contra hlt
    rw [if_pos ⟨hside, not_le.mp hlt⟩] at h
    exact Bool.false_ne_true h
  · intro hside
    by_contra hlt
    rw [if_neg, if_pos ⟨hside, not_le.mp hlt⟩] at h
    · exact Bool.false_ne_true h
    · rintro ⟨hbuy, -⟩
      rw [hside] at hbuy
      exact absurd hbuy (by simp)

theorem shouldPlaceOrder_eq_false_of_count (s : TopOfBookStrategy)
    (t : PositionTracker) (price : ℚ)
    (hge : 3 ≤ t.getPendingOrdersList.length) :
    s.shouldPlaceOrder t price = false := by
  unfold TopOfBookStrategy.shouldPlaceOrder
  rw [if_pos hge]
  split <;> first | rfl | (split <;> rfl)

theorem shouldPlaceOrder_count (s : TopOfBookStrategy)
    (t : PositionTracker) (price : ℚ)
    (h : s.shouldPlaceOrder t price = true) :
    t.getPendingOrdersList.length < 3 := by
  by_contra hge
  rw [not_lt] at hge
  rw [shouldPlaceOrder_eq_false_of_count s t price hge] at h
  exact Bool.false_ne_true h

theorem adjustPlacement_shouldPlace (s : TopOfBookStrategy)
    (t : PositionTracker) (m : MarketData) (p sz : ℚ)
    (h : s.adjustPlacement t m = some (p, sz)) :
    p = s.calculateTargetPrice t.getPendingOrdersList (s.currentTopPrice m) ∧
    s.shouldPlaceOrder (s.adjustCancelPhase t p) p = true := by
  simp only [TopOfBookStrategy.adjustPlacement] at h
  split at h
  · split at h
    · split at h
      · rename_i hsp
        have hps := Option.some.inj h
        have hp : s.calculateTargetPrice t.getPendingOrdersList
            (s.currentTopPrice m) = p := congrArg Prod.fst hps
        refine ⟨hp.symm, ?_⟩
        rw [← hp]
        exact hsp
      · exact absurd h (by simp)
    · exact absurd h (by simp)
  · exact absurd h (by simp)

theorem getPendingOrdersList_length (t : PositionTracker) :
    t.getPendingOrdersList.length = t.pendingOrders.length := by
  simp [PositionTracker.getPendingOrdersList]

theorem addPendingOrder_length_le (t : PositionTracker)
    (orderId : String) (price size : ℚ) :
    (t.addPendingOrder orderId price size).pendingOrders.length ≤
      t.pendingOrders.length + 1 := by
  simp only [PositionTracker.addPendingOrder, dictSet]
  split
  · simp
  · simp

theorem adjustCancelPhase_length_le (s : TopOfBookStrategy)
    (t : PositionTracker) (targetPrice : ℚ) :
    (s.adjustCancelPhase t targetPrice).pendingOrders.length ≤
      t.pendingOrders.length := by
  simp only [TopOfBookStrategy.adjustCancelPhase]
  exact List.length_filter_le _ _

/-- C2: any order the Top-of-Book strategy hands to the executor for
placement never crosses the configured limit price: a BUY is placed at
most at the limit, a SELL at least at the limit (`_should_place_order`
refuses any limit-violating price on the placement path). -/
theorem c2_placed_order_never_crosses_limit (s : TopOfBookStrategy)
    (t : PositionTracker) (m : MarketData) (p sz : ℚ)
    (h : s.adjustPlacement t m = some (p, sz)) :
    (s.side = .buy → p ≤ s.limitPrice) ∧
    (s.side = .sell → s.limitPrice ≤ p) := by
  obtain ⟨-, hsp⟩ := adjustPlacement_shouldPlace s t m p sz h
  exact shouldPlaceOrder_limit _ _ _ hsp

/-- Witness for C2: concrete BUY setup (limit 0.55, top bid 0.50, tick
0.01) places at 0.51, which is at most the limit. -/
theorem c2_witness :
    TopOfBookStrategy.adjustPlacement
      { childOrderSize := 10, limitPrice := 11/20, side := .buy,
        orderPriceMinTickSize := 1/100, priceImprovementTicks := 1,
        matchTopOfBook := false }
      (PositionTracker.init "tok" 20)
      { assetId := "a", topBid := 1/2, topAsk := 11/20,
        bidSize := 100, askSize := 100 } = some (51/100, 10) ∧
    (51 : ℚ)/100 ≤ 11/20 := by
  have h : TopOfBookStrategy.adjustPlacement
      { childOrderSize := 10, limitPrice := 11/20, side := .buy,
        orderPriceMinTickSize := 1/100, priceImprovementTicks := 1,
        matchTopOfBook := false }
      (PositionTracker.init "tok" 20)
      { assetId := "a", topBid := 1/2, topAsk := 11/20,
        bidSize := 100, askSize := 100 } = some (51/100, 10) := by
    simp only [TopOfBookStrategy.adjustPlacement,
      TopOfBookStrategy.calculateTargetPrice,
      TopOfBookStrategy.currentTopPrice, PositionTracker.init,
      PositionTracker.getPendingOrdersList,
      TopOfBookStrategy.adjustCancelPhase,
      PositionTracker.getRemainingQuantity,
      TopOfBookStrategy.shouldPlaceOrder,
      TopOfBookStrategy.getOptimalOrderSize,
      TopOfBookStrategy.roundDecimals, MIN_ORDER_SIZE, pyRound,
      pyRoundHalfEven, List.map_nil, List.max?_nil, Option.getD_none,
      List.filter_nil]
    norm_num [abs_of_nonneg]
    exact ⟨by decide, fun hc => absurd hc (by decide)⟩
  exact ⟨h, (c2_placed_order_never_crosses_limit _ _ _ _ _ h).1 rfl⟩

/-- C10: `_should_place_order` returns false whenever 3 or more orders
are pending — the bound is the hardcoded literal 3, unaffected by
`StrategyConfig.max_pending_orders` (which `OrderManager.__init__`
never passes to the strategy) — so an `_adjust_orders` step never
raises the pending-order count above 3. -/
theorem c10_pending_bound :
    (∀ (s : TopOfBookStrategy) (t : PositionTracker) (price : ℚ),
      3 ≤ t.getPendingOrdersList.length →
      s.shouldPlaceOrder t price = false) ∧
    (∀ (cfg : StrategyConfig) (n : ℕ),
      buildTopOfBookStrategy { cfg with maxPendingOrders := n } =
        buildTopOfBookStrategy cfg) ∧
    (∀ (s : TopOfBookStrategy) (t : PositionTracker) (m : MarketData)
        (newOrderId : String) (accepted : Bool),
      t.pendingOrders.length ≤ 3 →
      (s.adjustOrders t m newOrderId accepted).pendingOrders.length ≤ 3) := by
  refine ⟨fun s t price h => shouldPlaceOrder_eq_false_of_count s t price h,
          fun cfg n => rfl, ?_⟩
  intro s t m newOrderId accepted h
  simp only [TopOfBookStrategy.adjustOrders]
  have hlen1 := adjustCancelPhase_length_le s t
    (s.calculateTargetPrice t.getPendingOrdersList (s.currentTopPrice m))
  cases hpl : s.adjustPlacement t m with
  | none => exact le_trans hlen1 h
  | some ps =>
    obtain ⟨p, sz⟩ := ps
    obtain ⟨hp, hsp⟩ := adjustPlacement_shouldPlace s t m p sz hpl
    have hcount := shouldPlaceOrder_count _ _ _ hsp
    rw [getPendingOrdersList_length] at hcount
    cases accepted with
    | true =>
      simp only [if_pos]
      refine le_trans (addPendingOrder_length_le _ _ _ _) ?_
      rw [← hp]
      omega
    | false => exact le_trans hlen1 h

/-- Witness for C10: with three pending orders no further order is
placed; a full adjust step from an empty book keeps the count ≤ 3. -/
theorem c10_witness :
    TopOfBookStrategy.shouldPlaceOrder
      { childOrderSize := 10, limitPrice := 11/20, side := .buy,
        orderPriceMinTickSize := 1/100, priceImprovementTicks := 1,
        matchTopOfBook := false }
      ((((PositionTracker.init "tok" 40).addPendingOrder "a" (1/2) 10
        ).addPendingOrder "b" (49/100) 10).addPendingOrder "c" (12/25) 10)
      (1/2) = false ∧
    (TopOfBookStrategy.adjustOrders
      { childOrderSize := 10, limitPrice := 11/20, side := .buy,
        orderPriceMinTickSize := 1/100, priceImprovementTicks := 1,
        matchTopOfBook := false }
      (PositionTracker.init "tok" 20)
      { assetId := "a", topBid := 1/2, topAsk := 11/20,
        bidSize := 100, askSize := 100 }
      "new" true).pendingOrders.length ≤ 3 := by
  constructor
  · exact c10_pending_bound.1 _ _ _ (by decide)
  · exact c10_pending_bound.2.2 _ _ _ "new" true (by decide)

theorem calculateTargetPrice_self (s : TopOfBookStrategy)
    (pending : List OrderState) (top P : ℚ)
    (hbest : s.bestRestingPrice pending = some P)
    (hnear : |top - P| ≤ s.orderPriceMinTickSize) :
    s.calculateTargetPrice pending top = P := by
  obtain ⟨cs, lim, side, tick, ticks, mtb⟩ := s
  cases side with
  | buy =>
    simp only [TopOfBookStrategy.bestRestingPrice] at hbest
    simp only [TopOfBookStrategy.calculateTargetPrice]
    rw [hbest]
    simp only [Option.getD_some]
    rw [if_pos hnear]
  | sell =>
    simp only [TopOfBookStrategy.bestRestingPrice] at hbest
    dsimp only at hnear
    simp only [TopOfBookStrategy.calculateTargetPrice]
    rw [hbest]
    dsimp only
    rw [if_pos hnear]

/-- C5: when the venue's top price on our side is within one tick of
our best resting price P, `_calculate_target_price` returns P
unchanged; the order resting at P is not cancelled by the adjustment
phase, and when every pending order rests at P,
`_should_adjust_orders` reports no adjustment at all. -/
theorem c5_self_quote_no_reprice (s : TopOfBookStrategy)
    (t : PositionTracker) (m : MarketData) (P : ℚ)
    (hbest : s.bestRestingPrice t.getPendingOrdersList = some P)
    (hnear : |s.currentTopPrice m - P| ≤ s.orderPriceMinTickSize) :
    s.calculateTargetPrice t.getPendingOrdersList (s.currentTopPrice m) = P ∧
    (∀ pr ∈ t.pendingOrders, pr.2.price = P →
      pr ∈ (s.adjustCancelPhase t P).pendingOrders) ∧
    ((∀ o ∈ t.getPendingOrdersList, o.price = P) →
      s.shouldAdjustOrders t m = false) := by
  have htick : 0 ≤ s.orderPriceMinTickSize := le_trans (abs_nonneg _) hnear
  have htarget := calculateTargetPrice_self s t.getPendingOrdersList
    (s.currentTopPrice m) P hbest hnear
  refine ⟨htarget, ?_, ?_⟩
  · intro pr hpr hprice
    simp only [TopOfBookStrategy.adjustCancelPhase]
    rw [List.mem_filter]
    refine ⟨hpr, ?_⟩
    rw [decide_eq_true_eq, hprice, sub_self, abs_zero]
    exact htick
  · intro hall
    unfold TopOfBookStrategy.shouldAdjustOrders
    split
    · rfl
    · have hne : ¬ (t.getPendingOrdersList.isEmpty = true) := by
        intro hnil
        rw [List.isEmpty_iff] at hnil
        rw [hnil] at hbest
        cases hside : s.side <;>
          simp [TopOfBookStrategy.bestRestingPrice, hside] at hbest
      rw [if_neg hne]
      rw [List.any_eq_false]
      intro o ho
      rw [htarget, hall o ho, sub_self, abs_zero, decide_eq_true_eq]
      exact not_lt.mpr htick

/-- Witness for C5: a single resting BUY order at 0.50 with the venue
top bid at 0.505 and tick 0.01 keeps the target at 0.50 and triggers no
adjustment. -/
theorem c5_witness :
    TopOfBookStrategy.calculateTargetPrice
      { childOrderSize := 10, limitPrice := 11/20, side := .buy,
        orderPriceMinTickSize := 1/100, priceImprovementTicks := 1,
        matchTopOfBook := false }
      ((PositionTracker.init "tok" 20).addPendingOrder "o1" (1/2) 10
        ).getPendingOrdersList
      (TopOfBookStrategy.currentTopPrice
        { childOrderSize := 10, limitPrice := 11/20, side := .buy,
          orderPriceMinTickSize := 1/100, priceImprovementTicks := 1,
          matchTopOfBook := false }
        { assetId := "a", topBid := 101/200, topAsk := 3/5,
          bidSize := 50, askSize := 50 }) = 1/2 ∧
    TopOfBookStrategy.shouldAdjustOrders
      { childOrderSize := 10, limitPrice := 11/20, side := .buy,
        orderPriceMinTickSize := 1/100, priceImprovementTicks := 1,
        matchTopOfBook := false }
      ((PositionTracker.init "tok" 20).addPendingOrder "o1" (1/2) 10)
      { assetId := "a", topBid := 101/200, topAsk := 3/5,
        bidSize := 50, askSize := 50 } = false := by
  have h := c5_self_quote_no_reprice
    { childOrderSize := 10, limitPrice := 11/20, side := .buy,
      orderPriceMinTickSize := 1/100, priceImprovementTicks := 1,
      matchTopOfBook := false }
    ((PositionTracker.init "tok" 20).addPendingOrder "o1" (1/2) 10)
    { assetId := "a", topBid := 101/200, topAsk := 3/5,
      bidSize := 50, askSize := 50 }
    (1/2)
    (by simp [TopOfBookStrategy.bestRestingPrice,
      PositionTracker.getPendingOrdersList, PositionTracker.init,
      PositionTracker.addPendingOrder, dictSet, List.max?])
    (by norm_num [TopOfBookStrategy.currentTopPrice, abs_of_nonneg])
  refine ⟨h.1, h.2.2 ?_⟩
  simp [PositionTracker.getPendingOrdersList, PositionTracker.init,
    PositionTracker.addPendingOrder, dictSet]

theorem acquire_tokens_le_cap (rl : RateLimiter) (now : ℚ) :
    ((rl.acquire now).2).tokens ≤ rl.maxRequestsPerSecond := by
  unfold RateLimiter.acquire
  dsimp only
  split
  · dsimp only
    have := min_le_left rl.maxRequestsPerSecond
      (rl.tokens + (now - rl.lastUpdate) * rl.maxRequestsPerSecond)
    linarith
  · exact min_le_left _ _

theorem acquireSeq_same_instant (cap t : ℚ) (k : ℕ) :
    ∀ j : ℕ, (j : ℚ) ≤ cap →
    RateLimiter.acquireSeq ⟨cap, (j : ℚ), t⟩ (List.replicate k t) =
      (List.replicate (min k j) true ++ List.replicate (k - j) false,
       ⟨cap, ((j - k : ℕ) : ℚ), t⟩) := by
  induction k with
  | zero => intro j hj; simp [RateLimiter.acquireSeq]
  | succ k ih =>
    intro j hj
    rw [List.replicate_succ]
    simp only [RateLimiter.acquireSeq]
    have htok : min cap ((j : ℚ) + (t - t) * cap) = (j : ℚ) := by
      rw [sub_self, zero_mul, add_zero]
      exact min_eq_right hj
    cases j with
    | zero =>
      have hacq : RateLimiter.acquire ⟨cap, ((0 : ℕ) : ℚ), t⟩ t =
          (false, ⟨cap, ((0 : ℕ) : ℚ), t⟩) := by
        unfold RateLimiter.acquire
        dsimp only
        rw [Nat.cast_zero] at htok ⊢
        rw [htok, if_neg (by norm_num)]
      rw [hacq]
      dsimp only
      rw [ih 0 hj]
      simp [List.replicate_succ]
    | succ j =>
      have hone : (1 : ℚ) ≤ ((j + 1 : ℕ) : ℚ) := by
        push_cast
        linarith [Nat.cast_nonneg (α := ℚ) j]
      have hacq : RateLimiter.acquire ⟨cap, ((j + 1 : ℕ) : ℚ), t⟩ t =
          (true, ⟨cap, ((j : ℕ) : ℚ), t⟩) := by
        unfold RateLimiter.acquire
        dsimp only
        rw [htok, if_pos hone]
        have : ((j + 1 : ℕ) : ℚ) - 1 = ((j : ℕ) : ℚ) := by push_cast; ring
        rw [this]
      rw [hacq]
      dsimp only
      have hj' : ((j : ℕ) : ℚ) ≤ cap :=
        le_trans (by exact_mod_cast Nat.cast_le.mpr (Nat.le_succ j)) hj
      rw [ih j hj']
      refine Prod.ext ?_ ?_
      · dsimp only
        rw [Nat.succ_min_succ, List.replicate_succ, Nat.succ_sub_succ]
        rfl
      · dsimp only
        rw [Nat.succ_sub_succ]

theorem acquire_init_grant (N : ℕ) (hN : 0 < N) (t0 t : ℚ) (ht : t0 ≤ t) :
    (RateLimiter.init (N : ℚ) t0).acquire t =
      (true, ⟨(N : ℚ), ((N - 1 : ℕ) : ℚ), t⟩) := by
  unfold RateLimiter.init RateLimiter.acquire
  dsimp only
  have hnn : (0 : ℚ) ≤ (t - t0) * N := by
    have h1 : (0 : ℚ) ≤ t - t0 := sub_nonneg.mpr ht
    have h2 : (0 : ℚ) ≤ (N : ℚ) := Nat.cast_nonneg N
    positivity
  have htok : min (N : ℚ) ((N : ℚ) + (t - t0) * N) = (N : ℚ) :=
    min_eq_left (by linarith)
  rw [htok, if_pos (by exact_mod_cast hN)]
  have : (N : ℚ) - 1 = ((N - 1 : ℕ) : ℚ) := by
    rw [Nat.cast_sub hN]
    norm_num
  rw [this]

theorem acquireSeq_init_run (N m : ℕ) (hN : 0 < N) (t0 t : ℚ) (ht : t0 ≤ t) :
    (RateLimiter.init (N : ℚ) t0).acquireSeq (List.replicate (N + m) t) =
      (List.replicate N true ++ List.replicate m false,
       ⟨(N : ℚ), ((0 : ℕ) : ℚ), t⟩) := by
  have hsplit : N + m = (N - 1 + m) + 1 := by omega
  rw [hsplit, List.replicate_succ]
  simp only [RateLimiter.acquireSeq]
  rw [acquire_init_grant N hN t0 t ht]
  dsimp only
  have hj : ((N - 1 : ℕ) : ℚ) ≤ (N : ℚ) := by
    exact_mod_cast Nat.cast_le.mpr (Nat.sub_le N 1)
  rw [acquireSeq_same_instant (N : ℚ) t (N - 1 + m) (N - 1) hj]
  refine Prod.ext ?_ ?_
  · dsimp only
    have hmin : min (N - 1 + m) (N - 1) = N - 1 := by omega
    have hsub : (N - 1 + m) - (N - 1) = m := by omega
    rw [hmin, hsub]
    have : N = (N - 1) + 1 := by omega
    rw [this, List.replicate_succ]
    rfl
  · dsimp only
    have : (N - 1) - (N - 1 + m) = 0 := by omega
    rw [this]

/-- C6: a token bucket built with positive integer rate N grants
exactly the first N of N + m same-instant `acquire` calls and denies
the rest; the token count after any `acquire` never exceeds the
capacity; and waiting exactly 1/N seconds after saturation yields
exactly one further grant (a second call at that same instant is
denied). -/
theorem c6_rate_limiter_token_bucket (N m : ℕ) (t0 t : ℚ)
    (hN : 0 < N) (ht : t0 ≤ t) :
    ((RateLimiter.init (N : ℚ) t0).acquireSeq (List.replicate (N + m) t)).1 =
      List.replicate N true ++ List.replicate m false ∧
    (∀ (rl : RateLimiter) (now : ℚ),
      ((rl.acquire now).2).tokens ≤ rl.maxRequestsPerSecond) ∧
    ((((RateLimiter.init (N : ℚ) t0).acquireSeq
        (List.replicate N t)).2).acquire (t + 1/(N : ℚ))).1 = true ∧
    (((((RateLimiter.init (N : ℚ) t0).acquireSeq
        (List.replicate N t)).2).acquire (t + 1/(N : ℚ))).2.acquire
          (t + 1/(N : ℚ))).1 = false := by
  have hNq : (0 : ℚ) < (N : ℚ) := by exact_mod_cast hN
  have hone : (1 : ℚ) ≤ (N : ℚ) := by exact_mod_cast hN
  have hrun := acquireSeq_init_run N 0 hN t0 t ht
  rw [Nat.add_zero] at hrun
  have hsat : ((RateLimiter.init (N : ℚ) t0).acquireSeq
      (List.replicate N t)).2 = ⟨(N : ℚ), ((0 : ℕ) : ℚ), t⟩ :=
    congrArg Prod.snd hrun
  have hacq1 : (RateLimiter.acquire ⟨(N : ℚ), ((0 : ℕ) : ℚ), t⟩
      (t + 1/(N : ℚ))) = (true, ⟨(N : ℚ), 0, t + 1/(N : ℚ)⟩) := by
    unfold RateLimiter.acquire
    dsimp only
    have htok : min (N : ℚ) (((0 : ℕ) : ℚ) + (t + 1/(N : ℚ) - t) * N) = 1 := by
      rw [Nat.cast_zero, zero_add]
      have : (t + 1/(N : ℚ) - t) * N = 1 := by
        field_simp
        ring
      rw [this]
      exact min_eq_right hone
    rw [htok, if_pos (le_refl 1)]
    norm_num
  refine ⟨?_, fun rl now => acquire_tokens_le_cap rl now, ?_, ?_⟩
  · exact congrArg Prod.fst (acquireSeq_init_run N m hN t0 t ht)
  · rw [hsat, hacq1]
  · rw [hsat, hacq1]
    dsimp only
    unfold RateLimiter.acquire
    dsimp only
    rw [sub_self, zero_mul, add_zero]
    rw [min_eq_right (le_of_lt hNq)]
    rw [if_neg (by norm_num)]

/-- Witness for C6 at N = 2, m = 1, starting at instant 0: grants are
[true, true, false]; after 1/2 second one more grant, then denial. -/
theorem c6_witness :
    ((RateLimiter.init ((2 : ℕ) : ℚ) 0).acquireSeq
        (List.replicate (2 + 1) (0 : ℚ))).1 =
      List.replicate 2 true ++ List.replicate 1 false ∧
    ((((RateLimiter.init ((2 : ℕ) : ℚ) 0).acquireSeq
        (List.replicate 2 (0 : ℚ))).2).acquire (0 + 1/((2 : ℕ) : ℚ))).1 = true ∧
    (((((RateLimiter.init ((2 : ℕ) : ℚ) 0).acquireSeq
        (List.replicate 2 (0 : ℚ))).2).acquire (0 + 1/((2 : ℕ) : ℚ))).2.acquire
          (0 + 1/((2 : ℕ) : ℚ))).1 = false := by
  have h := c6_rate_limiter_token_bucket 2 1 0 0 (by norm_num) (by norm_num)
  exact ⟨h.1, h.2.2.1, h.2.2.2⟩

theorem cancelLoop_attempts_le (env : ℕ → AttemptOutcome)
    (orderId : String) :
    ∀ (left idx : ℕ),
      ((cancelLoop env orderId idx left).1.filter
        CancelEvent.isAttempt).length ≤ left := by
  intro left
  induction left with
  | zero => intro idx; simp [cancelLoop]
  | succ left ih =>
    intro idx
    simp only [cancelLoop]
    cases henv : env idx with
    | rateDenied =>
      by_cases hl : left = 0
      · simp [hl, CancelEvent.isAttempt]
      · simp only [if_neg hl]
        simp only [List.filter_cons, CancelEvent.isAttempt]
        simpa using Nat.succ_le_succ (ih (idx + 1))
    | response r =>
      by_cases hs : cancelRespSuccess orderId r = true
      · simp [hs, CancelEvent.isAttempt]
      · by_cases hl : left = 0
        · simp [hs, hl, CancelEvent.isAttempt]
        · simp only [if_neg hs, if_neg hl, Bool.false_eq_true]
          simp only [List.filter_cons, CancelEvent.isAttempt]
          simpa using Nat.succ_le_succ (ih (idx + 1))
    | raised =>
      by_cases hl : left = 0
      · simp [hl, CancelEvent.isAttempt]
      · simp only [if_neg hl]
        simp only [List.filter_cons, CancelEvent.isAttempt]
        simpa using Nat.succ_le_succ (ih (idx + 1))

theorem cancelLoop_no_silent_failure (env : ℕ → AttemptOutcome)
    (orderId : String) :
    ∀ (left idx : ℕ), 1 ≤ left →
      (cancelLoop env orderId idx left).2 = .ok true ∨
      ∃ msg, (cancelLoop env orderId idx left).2 = .error msg := by
  intro left
  induction left with
  | zero => intro idx h; omega
  | succ left ih =>
    intro idx _
    simp only [cancelLoop]
    cases henv : env idx with
    | rateDenied =>
      by_cases hl : left = 0
      · right
        rw [if_pos hl]
        exact ⟨_, rfl⟩
      · simp only [if_neg hl]
        exact ih (idx + 1) (by omega)
    | response r =>
      by_cases hs : cancelRespSuccess orderId r = true
      · left
        simp [hs]
      · by_cases hl : left = 0
        · right
          dsimp only
          rw [if_neg hs, if_pos hl]
          exact ⟨_, rfl⟩
        · simp only [if_neg hs, if_neg hl, Bool.false_eq_true]
          exact ih (idx + 1) (by omega)
    | raised =>
      by_cases hl : left = 0
      · right
        dsimp only
        rw [if_pos hl]
        exact ⟨_, rfl⟩
      · simp only [if_neg hl]
        exact ih (idx + 1) (by omega)

/-- Counterexample for C7: with `maxRetries = 0` the loop body never
runs and `cancel_order` returns `False` normally — no attempt reported
success, yet no hard failure is raised. -/
theorem c7_counterexample :
    (cancelOrder (fun _ => .rateDenied) "oid" 0).2 = .ok false ∧
    (cancelOrder (fun _ => .rateDenied) "oid" 0).1 = [] :=
  ⟨rfl, rfl⟩

/-- C7 (amended: for `maxRetries ≥ 1`): `cancel_order` makes at most
`maxRetries` attempts; a rate-limiter denial on a non-final attempt
consumes that attempt and is followed by a 1-second sleep before the
next attempt; and when at least one attempt is allowed, the call either
returns success or raises — it never returns normally without
success. -/
theorem c7_cancel_retry_policy :
    (∀ (env : ℕ → AttemptOutcome) (orderId : String) (maxRetries : ℕ),
      ((cancelOrder env orderId maxRetries).1.filter
        CancelEvent.isAttempt).length ≤ maxRetries) ∧
    (∀ (env : ℕ → AttemptOutcome) (orderId : String) (idx left : ℕ),
      env idx = .rateDenied → left ≠ 0 →
      cancelLoop env orderId idx (left + 1) =
        (.attemptAt idx :: .sleptSeconds 1 ::
          (cancelLoop env orderId (idx + 1) left).1,
         (cancelLoop env orderId (idx + 1) left).2)) ∧
    (∀ (env : ℕ → AttemptOutcome) (orderId : String) (maxRetries : ℕ),
      1 ≤ maxRetries →
      (cancelOrder env orderId maxRetries).2 = .ok true ∨
      ∃ msg, (cancelOrder env orderId maxRetries).2 = .error msg) := by
  refine ⟨fun env orderId maxRetries =>
      cancelLoop_attempts_le env orderId maxRetries 0,
    fun env orderId idx left henv hl => ?_,
    fun env orderId maxRetries h =>
      cancelLoop_no_silent_failure env orderId maxRetries 0 h⟩
  simp only [cancelLoop, henv, if_neg hl]

/-- Witness for C7: an always-rate-limited environment with 2 retries
makes at most 2 attempts, sleeps between the two, and ends in a raised
error, not a normal return. -/
theorem c7_witness :
    ((cancelOrder (fun _ => .rateDenied) "abc" 2).1.filter
      CancelEvent.isAttempt).length ≤ 2 ∧
    cancelLoop (fun _ => .rateDenied) "abc" 0 2 =
      (.attemptAt 0 :: .sleptSeconds 1 ::
        (cancelLoop (fun _ => .rateDenied) "abc" 1 1).1,
       (cancelLoop (fun _ => .rateDenied) "abc" 1 1).2) ∧
    ((cancelOrder (fun _ => .rateDenied) "abc" 2).2 = .ok true ∨
      ∃ msg, (cancelOrder (fun _ => .rateDenied) "abc" 2).2 = .error msg) :=
  ⟨c7_cancel_retry_policy.1 (fun _ => .rateDenied) "abc" 2,
   c7_cancel_retry_policy.2.1 (fun _ => .rateDenied) "abc" 0 1 rfl
     (by norm_num),
   c7_cancel_retry_policy.2.2 (fun _ => .rateDenied) "abc" 2 (by norm_num)⟩

theorem cancelRespSuccess_already (orderId : String)
    (canceled : List String) (notCanceled : List (String × String))
    (h : dictGet notCanceled orderId = some "order already canceled") :
    cancelRespSuccess orderId (.rdict canceled notCanceled) = true := by
  simp only [cancelRespSuccess]
  split
  · rfl
  · rw [h]
    simp

/-- C8: a venue response stating the order was already canceled makes
`cancel_order` return success on that attempt; and removing the same
order id from the PositionTracker a second time is a no-op leaving the
tracker state unchanged. -/
theorem c8_idempotent_cancel :
    (∀ (env : ℕ → AttemptOutcome) (orderId : String) (maxRetries : ℕ)
        (canceled : List String) (notCanceled : List (String × String)),
      1 ≤ maxRetries →
      env 0 = .response (.rdict canceled notCanceled) →
      dictGet notCanceled orderId = some "order already canceled" →
      (cancelOrder env orderId maxRetries).2 = .ok true) ∧
    (∀ (t : PositionTracker) (orderId : String),
      (t.removePendingOrder orderId).removePendingOrder orderId =
        t.removePendingOrder orderId) := by
  constructor
  · intro env orderId maxRetries canceled notCanceled hret henv hdict
    cases maxRetries with
    | zero => omega
    | succ n =>
      simp only [cancelOrder, cancelLoop, henv]
      rw [cancelRespSuccess_already orderId canceled notCanceled hdict]
      simp
  · intro t orderId
    simp [PositionTracker.removePendingOrder, List.filter_filter]

/-- Witness for C8: cancelling order "x" already reported canceled
returns success; removing "x" twice equals removing it once. -/
theorem c8_witness :
    (cancelOrder (fun _ => .response
      (.rdict [] [("x", "order already canceled")])) "x" 5).2 = .ok true ∧
    (((PositionTracker.init "tok" 20).addPendingOrder "x" (1/2) 10
        ).removePendingOrder "x").removePendingOrder "x" =
      ((PositionTracker.init "tok" 20).addPendingOrder "x" (1/2) 10
        ).removePendingOrder "x" :=
  ⟨c8_idempotent_cancel.1 (fun _ => .response
      (.rdict [] [("x", "order already canceled")])) "x" 5
      [] [("x", "order already canceled")] (by norm_num) rfl (by rfl),
   c8_idempotent_cancel.2 _ "x"⟩

/-- Counterexample for C9: after a timeout has elapsed (timeout 10s,
start 0, polled at t = 20), every `should_stop` poll re-invokes the
stop callback — two polls produce two `"timeout"` invocations, not
exactly one per triggering condition. -/
theorem c9_counterexample :
    StopConditionManager.pollShouldStop
      { timeoutSeconds := 10, startTime := 0, stopRequested := false,
        hasCallback := true } [20, 20] = ["timeout", "timeout"] ∧
    (StopConditionManager.pollShouldStop
      { timeoutSeconds := 10, startTime := 0, stopRequested := false,
        hasCallback := true } [20, 20]).length ≠ 1 := by
  have h : StopConditionManager.pollShouldStop
      { timeoutSeconds := 10, startTime := 0, stopRequested := false,
        hasCallback := true } [20, 20] = ["timeout", "timeout"] := by
    simp only [StopConditionManager.pollShouldStop,
      StopConditionManager.shouldStop, StopConditionManager.checkTimeout]
    norm_num
  exact ⟨h, by rw [h]; decide⟩

/-- C9 (amended): a manual stop invokes the callback exactly once, at
request time, and subsequent `should_stop` polls invoke it no further;
an elapsed timeout instead invokes the callback once on *every*
`should_stop` poll that observes it (so repeated polling re-invokes
it), with reason `"timeout"`. -/
theorem c9_stop_callback_invocations :
    (∀ (m : StopConditionManager) (times : List ℚ),
      m.hasCallback = true →
      m.requestStop.2 = ["manual_stop"] ∧
      StopConditionManager.pollShouldStop m.requestStop.1 times = []) ∧
    (∀ (m : StopConditionManager) (now : ℚ),
      m.stopRequested = false → m.hasCallback = true →
      m.timeoutSeconds < now - m.startTime →
      (m.shouldStop now).2 = ["timeout"]) := by
  constructor
  · intro m times hcb
    constructor
    · simp [StopConditionManager.requestStop, hcb]
    · simp [StopConditionManager.pollShouldStop,
        StopConditionManager.requestStop, StopConditionManager.shouldStop]
  · intro m now hsr hcb ht
    simp [StopConditionManager.shouldStop, StopConditionManager.checkTimeout,
      hsr, hcb, ht]

/-- Witness for C9's amended statement at concrete managers. -/
theorem c9_witness :
    (StopConditionManager.requestStop
      { timeoutSeconds := 10, startTime := 0, stopRequested := false,
        hasCallback := true }).2 = ["manual_stop"] ∧
    StopConditionManager.pollShouldStop
      (StopConditionManager.requestStop
        { timeoutSeconds := 10, startTime := 0, stopRequested := false,
          hasCallback := true }).1 [20, 30] = [] ∧
    (StopConditionManager.shouldStop
      { timeoutSeconds := 10, startTime := 0, stopRequested := false,
        hasCallback := true } 20).2 = ["timeout"] := by
  have h1 := c9_stop_callback_invocations.1
    { timeoutSeconds := 10, startTime := 0, stopRequested := false,
      hasCallback := true } [20, 30] rfl
  have h2 := c9_stop_callback_invocations.2
    { timeoutSeconds := 10, startTime := 0, stopRequested := false,
      hasCallback := true } 20 rfl rfl (by norm_num)
  exact ⟨h1.1, h1.2, h2⟩

theorem find?_map_replace {α : Type} (k : String) (v : α) :
    ∀ l : List (String × α), l.any (fun p => p.1 = k) = true →
    ((l.map (fun p => if p.1 = k then (k, v) else p)).find?
      (fun p => p.1 = k)).map (·.2) = some v := by
  intro l
  induction l with
  | nil => intro h; simp at h
  | cons p ps ih =>
    intro h
    by_cases hp : p.1 = k
    · simp [hp]
    · simp only [List.map_cons, if_neg hp]
      rw [List.find?_cons_of_neg _ (by simpa using hp)]
      apply ih
      simpa [List.any_cons, hp] using h

theorem find?_append_single {α : Type} (k : String) (v : α) :
    ∀ l : List (String × α), l.any (fun p => p.1 = k) = false →
    ((l ++ [(k, v)]).find? (fun p => p.1 = k)).map (·.2) = some v := by
  intro l
  induction l with
  | nil => intro _; simp
  | cons p ps ih =>
    intro h
    rw [List.any_cons, Bool.or_eq_false_iff] at h
    rw [List.cons_append, List.find?_cons_of_neg _ (by simp [h.1])]
    exact ih h.2

theorem dictGet_dictSet {α : Type} (l : List (String × α))
    (k : String) (v : α) : dictGet (dictSet l k v) k = some v := by
  unfold dictSet dictGet
  split
  · next hany => exact find?_map_replace k v l hany
  · next hany =>
    exact find?_append_single k v l (Bool.not_eq_true _ ▸ hany)

theorem ne_nil_of_getLast?_some {α : Type} {l : List α} {x : α}
    (h : l.getLast? = some x) : l ≠ [] := by
  intro hn
  rw [hn] at h
  simp at h

theorem emitIfTwoSided_some (fval : String → ℚ) (assetId : String)
    (book : OrderBook) (ev : MarketData)
    (h : emitIfTwoSided fval assetId book = some ev) :
    ev.assetId = assetId ∧ book.bids ≠ [] ∧ book.asks ≠ [] := by
  unfold emitIfTwoSided at h
  split at h
  · next bb ba hb ha =>
    refine ⟨?_, ne_nil_of_getLast?_some hb, ne_nil_of_getLast?_some ha⟩
    have := Option.some.inj h
    rw [← this]
  · exact absurd h (by simp)

theorem handleBookUpdate_emit (fval : String → ℚ)
    (books : List (String × OrderBook)) (msg : BookMessage)
    (books1 : List (String × OrderBook)) (ev : MarketData)
    (h : handleBookUpdate fval books msg = (books1, some ev)) :
    ∃ b, dictGet books1 ev.assetId = some b ∧
      b.bids ≠ [] ∧ b.asks ≠ [] := by
  unfold handleBookUpdate at h
  cases haid : msg.assetId with
  | none =>
    rw [haid] at h
    exact absurd (congrArg Prod.snd h) (by simp)
  | some aid =>
    rw [haid] at h
    dsimp only at h
    by_cases he : aid = ""
    · rw [if_pos he] at h
      exact absurd (congrArg Prod.snd h) (by simp)
    · rw [if_neg he] at h
      have hsnd := congrArg Prod.snd h
      have hfst := congrArg Prod.fst h
      dsimp only at hsnd hfst
      obtain ⟨heva, hbids, hasks⟩ := emitIfTwoSided_some fval aid _ ev hsnd
      refine ⟨{ bids := msg.bids, asks := msg.asks }, ?_, hbids, hasks⟩
      rw [← hfst, heva]
      exact dictGet_dictSet books aid _

theorem handlePriceChange_emit (fval : String → ℚ)
    (books : List (String × OrderBook)) (msg : PriceChangeMessage)
    (books1 : List (String × OrderBook)) (ev : MarketData)
    (h : handlePriceChange fval books msg = (books1, some ev)) :
    ∃ b, dictGet books1 ev.assetId = some b ∧
      b.bids ≠ [] ∧ b.asks ≠ [] := by
  unfold handlePriceChange at h
  cases haid : msg.assetId with
  | none =>
    rw [haid] at h
    exact absurd (congrArg Prod.snd h) (by simp)
  | some aid =>
    rw [haid] at h
    dsimp only at h
    by_cases he : aid = ""
    · rw [if_pos he] at h
      exact absurd (congrArg Prod.snd h) (by simp)
    · rw [if_neg he] at h
      cases hknown : dictGet books aid with
      | none =>
        rw [hknown] at h
        exact absurd (congrArg Prod.snd h) (by simp)
      | some book =>
        rw [hknown] at h
        have hsnd := congrArg Prod.snd h
        have hfst := congrArg Prod.fst h
        dsimp only at hsnd hfst
        obtain ⟨heva, hbids, hasks⟩ := emitIfTwoSided_some fval aid _ ev hsnd
        refine ⟨msg.changes.foldl (applySingleChange fval) book, ?_,
          hbids, hasks⟩
        rw [← hfst, heva]
        exact dictGet_dictSet books aid _

theorem processMessage_emit (fval : String → ℚ)
    (books : List (String × OrderBook)) (msg : StreamMessage)
    (books1 : List (String × OrderBook)) (ev : MarketData)
    (h : processMessage fval books msg = (books1, some ev)) :
    ∃ b, dictGet books1 ev.assetId = some b ∧
      b.bids ≠ [] ∧ b.asks ≠ [] := by
  cases msg with
  | book m => exact handleBookUpdate_emit fval books m books1 ev h
  | priceChange m => exact handlePriceChange_emit fval books m books1 ev h

/-- C3: along any sequence of full-book and price-change messages, a
`MarketData` event is only ever emitted when the stored book of its
instrument has both sides non-empty (so a diff that empties a side, or
a book message with an empty side, emits nothing), and a price-change
message for an unknown instrument is dropped without emitting. -/
theorem c3_no_one_sided_snapshot :
    (∀ (fval : String → ℚ) (books : List (String × OrderBook))
        (msg : StreamMessage) (books1 : List (String × OrderBook))
        (ev : MarketData),
      processMessage fval books msg = (books1, some ev) →
      ∃ b, dictGet books1 ev.assetId = some b ∧
        b.bids ≠ [] ∧ b.asks ≠ []) ∧
    (∀ (fval : String → ℚ) (books : List (String × OrderBook))
        (msgs : List StreamMessage),
      emitsOnlyTwoSidedFrom fval books msgs) ∧
    (∀ (fval : String → ℚ) (books : List (String × OrderBook))
        (msg : PriceChangeMessage) (aid : String),
      msg.assetId = some aid → dictGet books aid = none →
      handlePriceChange fval books msg = (books, none)) := by
  refine ⟨processMessage_emit, fun fval books msgs => ?_,
    fun fval books msg aid haid hunknown => ?_⟩
  · induction msgs generalizing books with
    | nil => trivial
    | cons m ms ih =>
      refine ⟨fun ev hev => ?_, ih _⟩
      exact processMessage_emit fval books m _ ev
        (by rw [← hev])
  · unfold handlePriceChange
    rw [haid]
    dsimp only
    by_cases he : aid = ""
    · rw [if_pos he]
    · rw [if_neg he, hunknown]

/-- Witness for C3: a price change zeroing out the only bid level of a
stored two-sided book emits no event, and a price change for an
unknown instrument is dropped. -/
theorem c3_witness :
    handlePriceChange (fun s => if s = "0" then 0 else 1) []
      { assetId := some "a", changes := [] } = ([], none) ∧
    (processMessage (fun s => if s = "0" then 0 else 1)
      [("a", { bids := [{ price := "0.50", size := "5" }],
               asks := [{ price := "0.60", size := "7" }] })]
      (.priceChange { assetId := some "a", changes :=
        [{ price := some "0.50", side := some "BUY",
           size := some "0" }] })).2 = none := by
  constructor
  · exact c3_no_one_sided_snapshot.2.2 _ [] _ "a" rfl rfl
  · simp only [processMessage, handlePriceChange, dictGet, dictSet,
      applySingleChange, updateLevels, emitIfTwoSided, List.foldl,
      List.find?, List.findIdx?, List.eraseIdx]
    simp

end Polymarket
